import Mathlib

/-!
Verification development for the conversation-state pipeline of the
Bokang_RAG repository (`src/qa.js`).

The development shallowly embeds the code of `qa.js`:
JavaScript values that flow through persistence are modelled by a small
JSON value type, message histories by lists of a `Message` structure,
the Redis store by a function from keys to optional raw values, and the
five LangGraph nodes (hydrate / ingest / rag / summarize / persist) by
functions from a graph state to a state delta, exactly as the source
builds them.  External services (the chat model, the retriever and the
`langchain` summarization middleware) enter through an `Env` record
holding the outcome of each external call for the turn under analysis.
-/

set_option maxRecDepth 8192

namespace Bokang

/-! Shallow model of a JavaScript/JSON value as it appears in message
content and metadata.  Numbers are restricted to naturals (the only
numbers the persisted payload contains are `schemaVersion` and the
`updatedAt` epoch-milliseconds timestamp).  Arrays and objects carry
their own spine types (`JsonList`, `JsonObj`) so that all functions on
JSON values are plain structural recursions. -/

mutual

/-- JSON value. -/
inductive JsonVal where
  | null
  | bool (b : Bool)
  | num (n : Nat)
  | str (s : String)
  | arr (xs : JsonList)
  | obj (kvs : JsonObj)

/-- Spine of a JSON array. -/
inductive JsonList where
  | nil
  | cons (hd : JsonVal) (tl : JsonList)

/-- Spine of a JSON object (insertion-ordered key/value bindings). -/
inductive JsonObj where
  | nil
  | cons (key : String) (val : JsonVal) (tl : JsonObj)

end

/-- Build a JSON array spine from a list of values. -/
def JsonList.ofList : List JsonVal → JsonList
  | [] => JsonList.nil
  | x :: rest => JsonList.cons x (JsonList.ofList rest)

/-- Build a JSON object spine from a list of key-value pairs. -/
def JsonObj.ofList : List (String × JsonVal) → JsonObj
  | [] => JsonObj.nil
  | (k, v) :: rest => JsonObj.cons k v (JsonObj.ofList rest)

/-- JavaScript property read `o[key]` on an object: first binding for
the key, `none` when absent (or when the value is not an object, as
with the optional-chaining reads in the source). -/
def objGet : JsonObj → String → Option JsonVal
  | JsonObj.nil, _ => none
  | JsonObj.cons k v tl, key => if k = key then some v else objGet tl key

/-- Property read through a general JSON value (`parsed?.messages`). -/
def jsonGet : JsonVal → String → Option JsonVal
  | JsonVal.obj kvs, key => objGet kvs key
  | _, _ => none

/-- Message roles used by the pipeline, mirroring the LangChain message
classes the source constructs (`SystemMessage`, `HumanMessage`,
`AIMessage`). -/
inductive Role where
  | system
  | human
  | ai
deriving DecidableEq

/-- One conversational message: a role together with its content and the
two metadata maps that `mapMessagesForStorage` sanitizes.  Content and
metadata are arbitrary JSON-like values, as in the source. -/
structure Message where
  role : Role
  content : JsonVal
  additional_kwargs : JsonVal
  response_metadata : JsonVal

/-- LangChain constructor `new HumanMessage(text)`: string content and
empty metadata maps. -/
def humanMessage (s : String) : Message :=
  ⟨Role.human, JsonVal.str s, JsonVal.obj JsonObj.nil, JsonVal.obj JsonObj.nil⟩

/-- LangChain constructor `new AIMessage(text)`. -/
def aiMessage (s : String) : Message :=
  ⟨Role.ai, JsonVal.str s, JsonVal.obj JsonObj.nil, JsonVal.obj JsonObj.nil⟩

/-! ### The reasoning-markup strip

`qa.js` line 85: `content.replace(/<think>[\s\S]*?<\/think>\s*/gi, "")`.
The JS regex engine scans left to right; at each index the pattern
matches iff the (case-insensitive) literal `<think>` starts there and a
(case-insensitive) `</think>` occurs later; the lazy middle makes the
match end at the FIRST such close tag, after which `\s*` greedily eats
whitespace; with the `g` flag scanning resumes after the match.  The
model below implements exactly that scan.  Recursion is by a fuel
argument; one unit of fuel is spent per step and every step consumes at
least one character, so fuel equal to the string length (as used by
`stripThinkString`) always suffices and the fuel-exhausted branch is
unreachable from `stripThinkString`. -/

/-- ASCII lowercasing, the canonicalization the `i` regex flag applies
to the ASCII-only literals `<think>` and `</think>`. -/
def lcChar (c : Char) : Char :=
  if 65 ≤ c.toNat && c.toNat ≤ 90 then Char.ofNat (c.toNat + 32) else c

/-- Case-insensitive literal match: returns the remaining characters
after the pattern (given lowercase) when it is a prefix. -/
def matchCI : List Char → List Char → Option (List Char)
  | [], cs => some cs
  | _ :: _, [] => none
  | p :: ps, c :: cs => if lcChar c = p then matchCI ps cs else none

/-- Characters of the literal open tag `<think>`. -/
def openTag : List Char := ['<', 't', 'h', 'i', 'n', 'k', '>']

/-- Characters of the literal close tag `</think>`. -/
def closeTag : List Char := ['<', '/', 't', 'h', 'i', 'n', 'k', '>']

/-- Remainder after the first case-insensitive occurrence of
`</think>`, if any: the end of the lazy `[\s\S]*?` part. -/
def findClose : List Char → Option (List Char)
  | [] => none
  | c :: rest =>
    match matchCI closeTag (c :: rest) with
    | some after => some after
    | none => findClose rest

/-- The JavaScript `\s` character class (WhiteSpace plus
LineTerminator code points). -/
def isJsSpace (c : Char) : Bool :=
  let n := c.toNat
  n == 9 || n == 10 || n == 11 || n == 12 || n == 13 || n == 32 ||
  n == 160 || n == 5760 || (8192 ≤ n && n ≤ 8202) || n == 8232 ||
  n == 8233 || n == 8239 || n == 8287 || n == 12288 || n == 65279

/-- When the whole regex matches at the head of `cs`, the remainder of
the input after the match (close tag and trailing whitespace
consumed); `none` when it does not match at this position. -/
def thinkMatchSplit (cs : List Char) : Option (List Char) :=
  match matchCI openTag cs with
  | none => none
  | some afterOpen =>
    match findClose afterOpen with
    | none => none
    | some afterClose => some (afterClose.dropWhile isJsSpace)

/-- Fuel-indexed scan of `String.prototype.replace` with the global
think-tag regex and empty replacement. -/
def stripThinkAux : Nat → List Char → List Char
  | 0, cs => cs
  | _ + 1, [] => []
  | fuel + 1, c :: rest =>
    match thinkMatchSplit (c :: rest) with
    | some after => stripThinkAux fuel after
    | none => c :: stripThinkAux fuel rest

/-- The string-level strip, `s.replace(/<think>[\s\S]*?<\/think>\s*/gi, "")`. -/
def stripThinkString (s : String) : String :=
  String.mk (stripThinkAux s.data.length s.data)

/-- Some position of `cs` starts a full `<think>…</think>` match. -/
def hasThinkMatch : List Char → Bool
  | [] => false
  | c :: rest => (thinkMatchSplit (c :: rest)).isSome || hasThinkMatch rest

/-- Source `stripThinkFromContent` (qa.js lines 83–86): strings are
stripped, any other content value is returned untouched. -/
def stripThinkFromContent : JsonVal → JsonVal
  | JsonVal.str s => JsonVal.str (stripThinkString s)
  | v => v

/-- Deletion of the `think` binding from an object
(`const next = { ...obj }; delete next.think;`), keeping every other
binding in its original order. -/
def objDeleteThink : JsonObj → JsonObj
  | JsonObj.nil => JsonObj.nil
  | JsonObj.cons k v tl =>
    if k = "think" then objDeleteThink tl else JsonObj.cons k v (objDeleteThink tl)

/-- Source `stripThinkFields` (qa.js lines 87–92): on a (non-null)
object the `think` key is deleted and the other entries are kept in
order; any non-object value is returned untouched. -/
def stripThinkFields : JsonVal → JsonVal
  | JsonVal.obj kvs => JsonVal.obj (objDeleteThink kvs)
  | v => v

/-! ### Storage mapping and the Redis payload -/

/-- LangChain `StoredMessage` as far as `qa.js` touches it: the `type`
discriminator and the `data` fields the sanitizer rewrites. -/
structure StoredMessage where
  type : String
  content : JsonVal
  additional_kwargs : JsonVal
  response_metadata : JsonVal

/-- Type string LangChain stores for each message class. -/
def roleToType : Role → String
  | Role.system => "system"
  | Role.human => "human"
  | Role.ai => "ai"

/-- One message's half of LangChain `mapChatMessagesToStoredMessages`. -/
def messageToStored (m : Message) : StoredMessage :=
  ⟨roleToType m.role, m.content, m.additional_kwargs, m.response_metadata⟩

/-- LangChain `mapChatMessagesToStoredMessages`. -/
def mapChatMessagesToStoredMessages (messages : List Message) : List StoredMessage :=
  messages.map messageToStored

/-- The per-message sanitizer applied inside `mapMessagesForStorage`
(qa.js lines 94–105): strip think markup from the content and the
`think` key from both metadata maps, keeping everything else. -/
def sanitizeStored (m : StoredMessage) : StoredMessage :=
  { m with
    content := stripThinkFromContent m.content
    additional_kwargs := stripThinkFields m.additional_kwargs
    response_metadata := stripThinkFields m.response_metadata }

/-- Source `mapMessagesForStorage` (qa.js lines 81–106). -/
def mapMessagesForStorage (messages : List Message) : List StoredMessage :=
  (mapChatMessagesToStoredMessages messages).map sanitizeStored

/-- The payload object `buildRedisPayload` assembles (qa.js 108–115). -/
structure RedisPayload where
  schemaVersion : Nat
  updatedAt : Nat
  messages : List StoredMessage

/-- Source `buildRedisPayload`; `Date.now()` is passed in as `now`. -/
def buildRedisPayload (messages : List Message) (now : Nat) : RedisPayload :=
  ⟨1, now, mapMessagesForStorage messages⟩

/-! ### JSON serialization (`JSON.stringify`)

Executable model of `JSON.stringify` on the values the payload
contains, used to state that the summarization trigger's size estimate
measures exactly the bytes `saveMessagesToRedis` writes. -/

/-- Lowercase hex digit. -/
def hexDigit (n : Nat) : Char :=
  if n < 10 then Char.ofNat (48 + n) else Char.ofNat (87 + n)

/-- Four-digit hex rendering used by the `\uXXXX` escape. -/
def hex4 (n : Nat) : String :=
  String.mk [hexDigit (n / 4096 % 16), hexDigit (n / 256 % 16),
             hexDigit (n / 16 % 16), hexDigit (n % 16)]

/-- Escape of one character inside a JSON string literal, per
`JSON.stringify`'s QuoteJSONString. -/
def escapeChar (c : Char) : String :=
  if c = '"' then "\\\""
  else if c = '\\' then "\\\\"
  else if c.toNat = 8 then "\\b"
  else if c.toNat = 9 then "\\t"
  else if c.toNat = 10 then "\\n"
  else if c.toNat = 12 then "\\f"
  else if c.toNat = 13 then "\\r"
  else if c.toNat < 32 then "\\u" ++ hex4 c.toNat
  else String.singleton c

/-- JSON string literal for `s`. -/
def quoteJson (s : String) : String :=
  "\"" ++ String.join (s.data.map escapeChar) ++ "\""

mutual

/-- `JSON.stringify` on a JSON value (literal braces in the object case
are written with hex escapes). -/
def jsonToString : JsonVal → String
  | JsonVal.null => "null"
  | JsonVal.bool true => "true"
  | JsonVal.bool false => "false"
  | JsonVal.num n => toString n
  | JsonVal.str s => quoteJson s
  | JsonVal.arr xs => "[" ++ jsonListToString xs ++ "]"
  | JsonVal.obj kvs => "\x7b" ++ jsonObjToString kvs ++ "\x7d"

/-- Comma-separated serialization of array elements. -/
def jsonListToString : JsonList → String
  | JsonList.nil => ""
  | JsonList.cons x JsonList.nil => jsonToString x
  | JsonList.cons x (JsonList.cons y tl) =>
    jsonToString x ++ "," ++ jsonListToString (JsonList.cons y tl)

/-- Comma-separated serialization of object entries. -/
def jsonObjToString : JsonObj → String
  | JsonObj.nil => ""
  | JsonObj.cons k v JsonObj.nil => quoteJson k ++ ":" ++ jsonToString v
  | JsonObj.cons k v (JsonObj.cons k2 v2 tl) =>
    quoteJson k ++ ":" ++ jsonToString v ++ "," ++ jsonObjToString (JsonObj.cons k2 v2 tl)

end

/-- JSON encoding of one stored message, with the field order
LangChain's serializer produces. -/
def encodeStoredMessage (m : StoredMessage) : JsonVal :=
  JsonVal.obj (JsonObj.ofList
    [("type", JsonVal.str m.type),
     ("data", JsonVal.obj (JsonObj.ofList
        [("content", m.content),
         ("additional_kwargs", m.additional_kwargs),
         ("response_metadata", m.response_metadata)]))])

/-- JSON encoding of the whole payload, with `buildRedisPayload`'s
field order. -/
def encodePayload (p : RedisPayload) : JsonVal :=
  JsonVal.obj (JsonObj.ofList
    [("schemaVersion", JsonVal.num p.schemaVersion),
     ("updatedAt", JsonVal.num p.updatedAt),
     ("messages", JsonVal.arr (JsonList.ofList (p.messages.map encodeStoredMessage)))])

/-! ### The durable store adapter -/

/-- Configuration slice of `config.redis` that `qa.js` reads.  `none`
models an unset entry (`config.redis?.x ?? default`).  The field
holding the key namespace is `config.redis.keyPrefix` in the source;
it is named `keyPfx` here. -/
structure Config where
  keyPfx : Option String
  maxValueBytes : Option Int
  summaryKeepLastN : Option Int
  summaryPfx : Option String

/-- Source `redisKeyForThread` (qa.js lines 62–67):
`(config.redis?.keyPrefix ?? "rag:mem:") + String(threadId || "default")`.
An absent (`none`) or empty (falsy) identifier resolves to the
sentinel `"default"`. -/
def redisKeyForThread (cfg : Config) (threadId : Option String) : String :=
  (cfg.keyPfx.getD "rag:mem:") ++
    (match threadId with
     | none => "default"
     | some s => if s = "" then "default" else s)

/-- A value held by the store under one key, as `JSON.parse` sees it: a
string rejected by the parser, or an accepted string identified by its
parse result.  (`JSON.parse` followed by `JSON.stringify` is the
identity on the payload shapes involved, so an accepted string is
represented by its value; `rawToString` recovers the stored text.) -/
inductive RawValue where
  | malformed (s : String)
  | json (v : JsonVal)

/-- The exact text stored under a key. -/
def rawToString : RawValue → String
  | RawValue.malformed s => s
  | RawValue.json v => jsonToString v

/-- Falsiness of the raw string (`if (!raw) return []`): only the
empty string among present values; a parseable JSON text is never
empty. -/
def isFalsyRaw : RawValue → Bool
  | RawValue.malformed s => s == ""
  | RawValue.json _ => false

/-- The key-value store: `GET` is application, `SET` is functional
update.  Expiry metadata (the optional `EX ttlSeconds` in
`saveMessagesToRedis`) affects only when a key disappears, never the
value written, and is not modelled. -/
def Store : Type := String → Option RawValue

/-- The list of values of a JSON array spine. -/
def JsonList.toList : JsonList → List JsonVal
  | JsonList.nil => []
  | JsonList.cons x tl => x :: JsonList.toList tl

/-- The messages field extraction of `loadMessagesFromRedis`:
`Array.isArray(parsed?.messages) ? parsed.messages : []`. -/
def storedOf (parsed : JsonVal) : List JsonVal :=
  match jsonGet parsed "messages" with
  | some (JsonVal.arr xs) => xs.toList
  | _ => []

/-- LangChain `mapStoredMessageToChatMessage` on one parsed entry:
dispatch on the `type` discriminator, rebuilding the message from the
`data` fields; an unrecognized type throws. -/
def mapStoredMessageToChatMessage (j : JsonVal) : Except String Message :=
  let fieldOf := fun (key : String) =>
    (match jsonGet j "data" with
     | some d => (jsonGet d key).getD JsonVal.null
     | none => JsonVal.null)
  match jsonGet j "type" with
  | some (JsonVal.str "system") =>
    Except.ok ⟨Role.system, fieldOf "content", fieldOf "additional_kwargs", fieldOf "response_metadata"⟩
  | some (JsonVal.str "human") =>
    Except.ok ⟨Role.human, fieldOf "content", fieldOf "additional_kwargs", fieldOf "response_metadata"⟩
  | some (JsonVal.str "ai") =>
    Except.ok ⟨Role.ai, fieldOf "content", fieldOf "additional_kwargs", fieldOf "response_metadata"⟩
  | _ => Except.error "Got unexpected type"

/-- LangChain `mapStoredMessagesToChatMessages`: element-wise decode,
the first failure propagating. -/
def mapStoredMessagesToChatMessages : List JsonVal → Except String (List Message)
  | [] => Except.ok []
  | j :: rest =>
    match mapStoredMessageToChatMessage j with
    | Except.error e => Except.error e
    | Except.ok m =>
      match mapStoredMessagesToChatMessages rest with
      | Except.error e => Except.error e
      | Except.ok ms => Except.ok (m :: ms)

/-- Source `loadMessagesFromRedis` (qa.js lines 69–79).  A missing key
or falsy raw value yields `[]`; an unparseable raw value propagates
the `JSON.parse` exception (`Except.error`); otherwise the `messages`
field (defaulting to `[]` when not an array) is mapped back to chat
messages. -/
def loadMessagesFromRedis (cfg : Config) (store : Store) (threadId : Option String) :
    Except String (List Message) :=
  match store (redisKeyForThread cfg threadId) with
  | none => Except.ok []
  | some raw =>
    if isFalsyRaw raw then Except.ok []
    else
      match raw with
      | RawValue.malformed _ => Except.error "JSON.parse: unexpected token"
      | RawValue.json parsed => mapStoredMessagesToChatMessages (storedOf parsed)

/-- The raw value `saveMessagesToRedis` writes for a message list at
time `now` (`JSON.stringify(buildRedisPayload(messages))`). -/
def redisValueWritten (messages : List Message) (now : Nat) : RawValue :=
  RawValue.json (encodePayload (buildRedisPayload messages now))

/-- Source `saveMessagesToRedis` (qa.js lines 123–134), with
`Date.now()` passed in as `now`.  Both the TTL and the no-TTL branch
`SET` the same serialized payload, so the TTL configuration does not
appear. -/
def saveMessagesToRedis (cfg : Config) (store : Store) (threadId : Option String)
    (messages : List Message) (now : Nat) : Store :=
  let key := redisKeyForThread cfg threadId
  fun k => if k = key then some (redisValueWritten messages now) else store k

/-- Source `estimateRedisValueBytes` (qa.js lines 117–121):
`Buffer.byteLength(JSON.stringify(buildRedisPayload(messages)))`,
with `Date.now()` passed in as `now` (`Buffer.byteLength` defaults to
UTF-8). -/
def estimateRedisValueBytes (messages : List Message) (now : Nat) : Nat :=
  (jsonToString (encodePayload (buildRedisPayload messages now))).utf8ByteSize

/-! ### The conversation graph

`createRagGraph` (qa.js lines 169–285) wires five nodes in sequence:
hydrate → ingest → rag → summarize → persist.  A node returns a partial
state update; the `messages` channel is merged by LangGraph's
`messagesStateReducer` (which interprets a `RemoveMessage` carrying
`REMOVE_ALL_MESSAGES` as clearing the accumulated list), the other
channels are last-value channels.  External effects — the Redis client,
the RAG chain and the summarization middleware — are represented by an
`Env` record fixing the outcome of each external call during the turn. -/

/-- An entry of a node's `messages` update: an ordinary message, or
`new RemoveMessage({ id: REMOVE_ALL_MESSAGES })`. -/
inductive GMsg where
  | removeAll
  | msg (m : Message)

/-- LangGraph `messagesStateReducer` restricted to the updates the
source emits: fold the update list into the accumulated history, a
`removeAll` marker clearing it and a plain message appending.  (The
reducer's replace-by-id rule never fires: the source only ever appends
freshly constructed messages.) -/
def messagesStateReducer (left : List Message) (right : List GMsg) : List Message :=
  right.foldl
    (fun acc g =>
      match g with
      | GMsg.removeAll => []
      | GMsg.msg m => acc ++ [m])
    left

/-- The graph state (`GraphState` annotation root, qa.js 176–185). -/
structure GraphState where
  messages : List Message
  threadId : Option String
  input : String
  answer : Option String
  context : Option (List String)

/-- A node's partial state update; `none` leaves a channel untouched. -/
structure Delta where
  messages : Option (List GMsg)
  answer : Option String
  context : Option (List String)

/-- The empty update `{}`. -/
def Delta.empty : Delta := ⟨none, none, none⟩

/-- Merge of a node's update into the state: the `messages` channel
goes through `messagesStateReducer`, the last-value channels are
overwritten when present. -/
def applyDelta (st : GraphState) (d : Delta) : GraphState :=
  { st with
    messages :=
      match d.messages with
      | none => st.messages
      | some gs => messagesStateReducer st.messages gs
    answer :=
      match d.answer with
      | none => st.answer
      | some a => some a
    context :=
      match d.context with
      | none => st.context
      | some c => some c }

/-- Result of `ragChain.invoke({ input })`: the fields qa.js reads
(`res?.answer ?? res?.output ?? ""` and `res?.context ?? []`). -/
structure RagResult where
  answer : Option String
  output : Option String
  context : Option (List String)

/-- The answer string the rag node extracts from a chain result. -/
def ragAnswerOf (res : RagResult) : String :=
  res.answer.getD (res.output.getD "")

/-- Outcome of the `summarizationMiddleware(...).beforeModel` call:
the call may throw, may yield no usable output (`!res?.messages`), or
may produce a summary text. -/
inductive SummaryOutcome where
  | throws (e : String)
  | noOutput
  | produces (summaryText : String)

/-- The environment of one turn: the configuration, the store contents
at hydrate time, and the outcome of each external call. -/
structure Env where
  cfg : Config
  store : Store
  getFails : Bool
  ragResult : Except String RagResult
  summaryOutcome : SummaryOutcome
  setFails : Bool
  now : Nat

/-- Modelled from the spec: the summary message the external
summarization middleware synthesizes (§4.3: one message whose text is
the configured marker followed by the generated summary; the
middleware package itself is not part of this repository's sources). -/
def summaryMessage (marker : String) (body : String) : Message :=
  humanMessage (marker ++ body)

/-- Modelled from the spec: the message list
`summarizationMiddleware(...).beforeModel` returns on success (§4.3,
§6 `summarize(messages, keepLastN, prefix) -> messages'`): a
remove-all marker, the synthesized summary message, then the
`keepLastN` most recent input messages verbatim in original order. -/
def middlewareMessages (keepLastN : Nat) (marker : String) (body : String)
    (msgs : List Message) : List GMsg :=
  GMsg.removeAll :: GMsg.msg (summaryMessage marker body) ::
    (msgs.drop (msgs.length - keepLastN)).map GMsg.msg

/-- A caught node body: `try { … } catch { return {} }`. -/
def catchDelta : Except String Delta → Delta
  | Except.ok d => d
  | Except.error _ => Delta.empty

/-- The system messages the summarize node retains
(`messages.filter((m) => SystemMessage.isInstance(m))`). -/
def systemMessagesOf (messages : List Message) : List Message :=
  messages.filter (fun m => decide (m.role = Role.system))

/-- The non-system messages the summarize node compresses.  The
source's additional `RemoveMessage` filter is vacuous here: reduced
state never retains remove markers. -/
def nonSystemMessagesOf (messages : List Message) : List Message :=
  messages.filter (fun m => !decide (m.role = Role.system))

/-- Body of the hydrate node (qa.js 188–203) before its `catch`:
failure of the client or of `loadMessagesFromRedis` is an error; an
empty restored history yields `{}`; otherwise the update clears the
in-memory history and installs the restored one. -/
def hydrateAttempt (env : Env) (st : GraphState) : Except String Delta :=
  if env.getFails then Except.error "Redis client unavailable"
  else
    match loadMessagesFromRedis env.cfg env.store st.threadId with
    | Except.error e => Except.error e
    | Except.ok restored =>
      if restored.isEmpty then Except.ok Delta.empty
      else Except.ok ⟨some (GMsg.removeAll :: restored.map GMsg.msg), none, none⟩

/-- The hydrate node with its local `catch`. -/
def hydrateNode (env : Env) (st : GraphState) : Delta :=
  catchDelta (hydrateAttempt env st)

/-- The ingest node (qa.js 204–209): append the user's question. -/
def ingestNode (st : GraphState) : Delta :=
  ⟨some [GMsg.msg (humanMessage st.input)], none, none⟩

/-- The rag node (qa.js 210–220): invoke the chain; on success append
the AI message and set the `answer` and `context` channels; a chain
failure is NOT caught and aborts the turn. -/
def ragNode (env : Env) : Except String Delta :=
  match env.ragResult with
  | Except.error e => Except.error e
  | Except.ok res =>
    Except.ok ⟨some [GMsg.msg (aiMessage (ragAnswerOf res))],
               some (ragAnswerOf res),
               some (res.context.getD [])⟩

/-- The summarize node's `summarizedMessages` (qa.js 250–252): the
middleware result with `RemoveMessage` entries filtered out, for the
node's configuration (`keepLastN`, `summaryPrefix` with their
defaults). -/
def summarizedMessagesOf (cfg : Config) (body : String) (nonSystem : List Message) :
    List Message :=
  (middlewareMessages ((cfg.summaryKeepLastN).getD 6).toNat
      ((cfg.summaryPfx).getD "对话摘要：") body nonSystem).filterMap
    (fun g => match g with | GMsg.removeAll => none | GMsg.msg m => some m)

/-- Body of the summarize node (qa.js 221–265) before its `catch`. -/
def summarizeAttempt (env : Env) (st : GraphState) : Except String Delta :=
  if (env.cfg.maxValueBytes).getD 0 ≤ 0 then Except.ok Delta.empty
  else if (estimateRedisValueBytes st.messages env.now : Int) ≤ (env.cfg.maxValueBytes).getD 0 then
    Except.ok Delta.empty
  else if (nonSystemMessagesOf st.messages).isEmpty then Except.ok Delta.empty
  else
    match env.summaryOutcome with
    | SummaryOutcome.throws e => Except.error e
    | SummaryOutcome.noOutput => Except.ok Delta.empty
    | SummaryOutcome.produces body =>
      if (summarizedMessagesOf env.cfg body (nonSystemMessagesOf st.messages)).isEmpty then
        Except.ok Delta.empty
      else
        Except.ok ⟨some (GMsg.removeAll ::
                         (systemMessagesOf st.messages ++
                          summarizedMessagesOf env.cfg body (nonSystemMessagesOf st.messages)).map GMsg.msg),
                   none, none⟩

/-- The summarize node with its local `catch`. -/
def summarizeNode (env : Env) (st : GraphState) : Delta :=
  catchDelta (summarizeAttempt env st)

/-- The persist node's effect on the store (qa.js 266–275): write the
final history, a failure leaving the store as it was (the `catch`
only logs).  The node's state update is `{}` in all cases. -/
def persistStore (env : Env) (st : GraphState) : Store :=
  if env.setFails then env.store
  else saveMessagesToRedis env.cfg env.store st.threadId st.messages env.now

/-- One turn of the compiled graph: the five nodes in edge order.  The
only uncaught failure point is the rag node. -/
def runPipeline (env : Env) (st0 : GraphState) :
    Except String (GraphState × Store) :=
  let st1 := applyDelta st0 (hydrateNode env st0)
  let st2 := applyDelta st1 (ingestNode st1)
  match ragNode env with
  | Except.error e => Except.error e
  | Except.ok d =>
    let st3 := applyDelta st2 d
    let st4 := applyDelta st3 (summarizeNode env st3)
    let finalStore := persistStore env st4
    Except.ok (applyDelta st4 Delta.empty, finalStore)

/-! ### Helper predicates for the round-trip hypotheses -/

/-- No binding of the object (when it is one) uses the internal-only
`think` key. -/
def noThinkKey : JsonVal → Bool
  | JsonVal.obj kvs => objNoThink kvs
  | _ => true
where
  /-- Object-spine helper for `noThinkKey`. -/
  objNoThink : JsonObj → Bool
  | JsonObj.nil => true
  | JsonObj.cons k _ tl => (k != "think") && objNoThink tl

/-- String contents carry no `<think>…</think>` segment; non-string
contents trivially qualify (the strip does not touch them). -/
def contentNoThink : JsonVal → Bool
  | JsonVal.str s => !hasThinkMatch s.data
  | _ => true

/-! ### Basic lemmas about the graph-state merge -/

lemma applyDelta_empty (st : GraphState) : applyDelta st Delta.empty = st := by
  cases st
  rfl

lemma foldl_reducer_msgs (ms : List Message) :
    ∀ acc : List Message,
      List.foldl
        (fun acc g =>
          match g with
          | GMsg.removeAll => []
          | GMsg.msg m => acc ++ [m])
        acc (ms.map GMsg.msg) = acc ++ ms := by
  induction ms with
  | nil => intro acc; simp
  | cons m rest ih =>
    intro acc
    simp only [List.map_cons, List.foldl_cons, ih]
    simp

lemma reducer_removeAll (left : List Message) (ms : List Message) :
    messagesStateReducer left (GMsg.removeAll :: ms.map GMsg.msg) = ms := by
  unfold messagesStateReducer
  simp only [List.foldl_cons]
  simpa using foldl_reducer_msgs ms []

lemma reducer_append (left : List Message) (ms : List Message) :
    messagesStateReducer left (ms.map GMsg.msg) = left ++ ms := by
  unfold messagesStateReducer
  exact foldl_reducer_msgs ms left

/-! ### Lemmas about the reasoning-markup strip -/

lemma stripThinkAux_of_no_match :
    ∀ (fuel : Nat) (cs : List Char), hasThinkMatch cs = false →
      stripThinkAux fuel cs = cs := by
  intro fuel
  induction fuel with
  | zero => intro cs _; rfl
  | succ f ih =>
    intro cs h
    cases cs with
    | nil => rfl
    | cons c rest =>
      have hsplit : thinkMatchSplit (c :: rest) = none := by
        by_contra hne
        have : (thinkMatchSplit (c :: rest)).isSome = true := by
          cases hx : thinkMatchSplit (c :: rest) with
          | none => exact absurd hx hne
          | some a => rfl
        simp [hasThinkMatch, this] at h
      have hrest : hasThinkMatch rest = false := by
        simp [hasThinkMatch, Bool.or_eq_false_iff] at h
        exact h.2
      simp [stripThinkAux, hsplit, ih rest hrest]

lemma stripThinkString_of_no_match (s : String) (h : hasThinkMatch s.data = false) :
    stripThinkString s = s := by
  unfold stripThinkString
  rw [stripThinkAux_of_no_match _ _ h]

lemma stripThinkFromContent_of_no_think (c : JsonVal) (h : contentNoThink c = true) :
    stripThinkFromContent c = c := by
  cases c with
  | str s =>
    have : hasThinkMatch s.data = false := by
      simpa [contentNoThink] using h
    simp [stripThinkFromContent, stripThinkString_of_no_match s this]
  | null => rfl
  | bool b => rfl
  | num n => rfl
  | arr xs => rfl
  | obj kvs => rfl

/-! ### Lemmas about metadata sanitization -/

lemma objGet_objDeleteThink_ne :
    ∀ (kvs : JsonObj) (k : String), k ≠ "think" →
      objGet (objDeleteThink kvs) k = objGet kvs k
  | JsonObj.nil, _, _ => rfl
  | JsonObj.cons key v tl, k, hk => by
    by_cases hkey : key = "think"
    · subst hkey
      have hne : ("think" : String) = k ↔ False := by
        constructor
        · intro hx; exact hk hx.symm
        · intro hx; exact hx.elim
      simp [objDeleteThink, objGet, hne, objGet_objDeleteThink_ne tl k hk]
    · simp [objDeleteThink, hkey, objGet, objGet_objDeleteThink_ne tl k hk]

lemma objGet_objDeleteThink_think :
    ∀ kvs : JsonObj, objGet (objDeleteThink kvs) "think" = none
  | JsonObj.nil => rfl
  | JsonObj.cons key v tl => by
    by_cases hkey : key = "think"
    · simp [objDeleteThink, hkey, objGet_objDeleteThink_think tl]
    · simp [objDeleteThink, hkey, objGet, objGet_objDeleteThink_think tl]

lemma objDeleteThink_of_noThink :
    ∀ kvs : JsonObj, noThinkKey.objNoThink kvs = true → objDeleteThink kvs = kvs
  | JsonObj.nil, _ => rfl
  | JsonObj.cons key v tl, h => by
    simp only [noThinkKey.objNoThink, Bool.and_eq_true, bne_iff_ne, ne_eq] at h
    simp [objDeleteThink, h.1, objDeleteThink_of_noThink tl h.2]

lemma stripThinkFields_of_noThink (v : JsonVal) (h : noThinkKey v = true) :
    stripThinkFields v = v := by
  cases v with
  | obj kvs =>
    have : noThinkKey.objNoThink kvs = true := by simpa [noThinkKey] using h
    simp [stripThinkFields, objDeleteThink_of_noThink kvs this]
  | null => rfl
  | bool b => rfl
  | num n => rfl
  | str s => rfl
  | arr xs => rfl

/-! ### Round-trip lemmas for storage -/

lemma decode_encode_sanitized (m : Message)
    (hc : contentNoThink m.content = true)
    (ha : noThinkKey m.additional_kwargs = true)
    (hr : noThinkKey m.response_metadata = true) :
    mapStoredMessageToChatMessage (encodeStoredMessage (sanitizeStored (messageToStored m))) =
      Except.ok m := by
  obtain ⟨role, content, ak, rm⟩ := m
  have hc' := stripThinkFromContent_of_no_think content hc
  have ha' := stripThinkFields_of_noThink ak ha
  have hr' := stripThinkFields_of_noThink rm hr
  cases role <;>
    simp [mapStoredMessageToChatMessage, encodeStoredMessage, sanitizeStored,
          messageToStored, roleToType, jsonGet, objGet, JsonObj.ofList, hc', ha', hr']

lemma mapStored_roundtrip (msgs : List Message)
    (h : ∀ m ∈ msgs, contentNoThink m.content = true ∧
         noThinkKey m.additional_kwargs = true ∧ noThinkKey m.response_metadata = true) :
    mapStoredMessagesToChatMessages ((mapMessagesForStorage msgs).map encodeStoredMessage) =
      Except.ok msgs := by
  induction msgs with
  | nil => rfl
  | cons m rest ih =>
    have hm := h m (List.mem_cons_self m rest)
    have hrest := fun x hx => h x (List.mem_cons_of_mem m hx)
    have hdec := decode_encode_sanitized m hm.1 hm.2.1 hm.2.2
    simp only [mapMessagesForStorage, mapChatMessagesToStoredMessages,
      List.map_cons, mapStoredMessagesToChatMessages, hdec]
    have ih' := ih hrest
    simp only [mapMessagesForStorage, mapChatMessagesToStoredMessages, List.map_map] at ih'
    simp [List.map_map, ih']

/-! ### Shape lemmas for the pipeline nodes -/

lemma filterMap_msg (ms : List Message) :
    List.filterMap
      (fun g => match g with | GMsg.removeAll => none | GMsg.msg m => some m)
      (ms.map GMsg.msg) = ms := by
  induction ms with
  | nil => rfl
  | cons m rest ih => simp [List.filterMap_cons, ih]

lemma summarizedMessagesOf_eq (cfg : Config) (body : String) (nonSystem : List Message) :
    summarizedMessagesOf cfg body nonSystem =
      summaryMessage ((cfg.summaryPfx).getD "对话摘要：") body ::
        nonSystem.drop (nonSystem.length - ((cfg.summaryKeepLastN).getD 6).toNat) := by
  unfold summarizedMessagesOf middlewareMessages
  simp only [List.filterMap_cons]
  rw [filterMap_msg]

lemma summarizeNode_of_nonpos (env : Env) (st : GraphState)
    (h1 : env.cfg.maxValueBytes.getD 0 ≤ 0) :
    summarizeNode env st = Delta.empty := by
  unfold summarizeNode summarizeAttempt
  rw [if_pos h1]
  rfl

lemma summarizeNode_of_small (env : Env) (st : GraphState)
    (h2 : (estimateRedisValueBytes st.messages env.now : Int) ≤ env.cfg.maxValueBytes.getD 0) :
    summarizeNode env st = Delta.empty := by
  by_cases h1 : env.cfg.maxValueBytes.getD 0 ≤ 0
  · exact summarizeNode_of_nonpos env st h1
  · unfold summarizeNode summarizeAttempt
    rw [if_neg h1, if_pos h2]
    rfl

lemma summarizeNode_of_noNonSystem (env : Env) (st : GraphState)
    (h3 : nonSystemMessagesOf st.messages = []) :
    summarizeNode env st = Delta.empty := by
  by_cases h1 : env.cfg.maxValueBytes.getD 0 ≤ 0
  · exact summarizeNode_of_nonpos env st h1
  by_cases h2 : (estimateRedisValueBytes st.messages env.now : Int) ≤ env.cfg.maxValueBytes.getD 0
  · exact summarizeNode_of_small env st h2
  unfold summarizeNode summarizeAttempt
  rw [if_neg h1, if_neg h2, if_pos (by simp [h3])]
  rfl

lemma summarizeNode_of_throws (env : Env) (st : GraphState) (e : String)
    (h : env.summaryOutcome = SummaryOutcome.throws e) :
    summarizeNode env st = Delta.empty := by
  by_cases h1 : env.cfg.maxValueBytes.getD 0 ≤ 0
  · exact summarizeNode_of_nonpos env st h1
  by_cases h2 : (estimateRedisValueBytes st.messages env.now : Int) ≤ env.cfg.maxValueBytes.getD 0
  · exact summarizeNode_of_small env st h2
  by_cases h3 : nonSystemMessagesOf st.messages = []
  · exact summarizeNode_of_noNonSystem env st h3
  unfold summarizeNode summarizeAttempt
  rw [if_neg h1, if_neg h2, if_neg (by simpa [List.isEmpty_iff] using h3), h]
  rfl

lemma summarizeNode_of_produces (env : Env) (st : GraphState) (body : String)
    (h1 : ¬ env.cfg.maxValueBytes.getD 0 ≤ 0)
    (h2 : ¬ (estimateRedisValueBytes st.messages env.now : Int) ≤ env.cfg.maxValueBytes.getD 0)
    (h3 : nonSystemMessagesOf st.messages ≠ [])
    (h : env.summaryOutcome = SummaryOutcome.produces body) :
    summarizeNode env st =
      ⟨some (GMsg.removeAll ::
             (systemMessagesOf st.messages ++
              summarizedMessagesOf env.cfg body (nonSystemMessagesOf st.messages)).map GMsg.msg),
       none, none⟩ := by
  unfold summarizeNode summarizeAttempt
  rw [if_neg h1, if_neg h2, if_neg (by simpa [List.isEmpty_iff] using h3), h]
  rfl

lemma summarizeNode_answer_context (env : Env) (st : GraphState) :
    (summarizeNode env st).answer = none ∧ (summarizeNode env st).context = none := by
  by_cases h1 : env.cfg.maxValueBytes.getD 0 ≤ 0
  · rw [summarizeNode_of_nonpos env st h1]; exact ⟨rfl, rfl⟩
  by_cases h2 : (estimateRedisValueBytes st.messages env.now : Int) ≤ env.cfg.maxValueBytes.getD 0
  · rw [summarizeNode_of_small env st h2]; exact ⟨rfl, rfl⟩
  by_cases h3 : nonSystemMessagesOf st.messages = []
  · rw [summarizeNode_of_noNonSystem env st h3]; exact ⟨rfl, rfl⟩
  cases hso : env.summaryOutcome with
  | throws e => rw [summarizeNode_of_throws env st e hso]; exact ⟨rfl, rfl⟩
  | noOutput =>
    unfold summarizeNode summarizeAttempt
    rw [if_neg h1, if_neg h2, if_neg (by simpa [List.isEmpty_iff] using h3), hso]
    exact ⟨rfl, rfl⟩
  | produces body =>
    rw [summarizeNode_of_produces env st body h1 h2 h3 hso]
    exact ⟨rfl, rfl⟩

lemma hydrateNode_of_getFails (env : Env) (st : GraphState)
    (h : env.getFails = true) : hydrateNode env st = Delta.empty := by
  simp [hydrateNode, hydrateAttempt, h, catchDelta]

lemma hydrateNode_of_load_error (env : Env) (st : GraphState) (e : String)
    (hg : env.getFails = false)
    (h : loadMessagesFromRedis env.cfg env.store st.threadId = Except.error e) :
    hydrateNode env st = Delta.empty := by
  simp [hydrateNode, hydrateAttempt, hg, h, catchDelta]

/-! ### Claim C7: key derivation -/

lemma string_append_right_inj {p a b : String} (h : p ++ a = p ++ b) : a = b := by
  obtain ⟨lp⟩ := p
  obtain ⟨la⟩ := a
  obtain ⟨lb⟩ := b
  have h2 : lp ++ la = lp ++ lb := congrArg String.data h
  exact congrArg String.mk (List.append_cancel_left h2)

/-- C7 counterexample: the empty string and `"default"` are two
distinct thread identifiers whose derived store keys coincide, because
the source treats every falsy identifier — the empty string included —
as the sentinel `"default"`.  So the claim's collision-freedom over all
distinct identifiers fails. -/
theorem C7_counterexample :
    redisKeyForThread ⟨none, none, none, none⟩ (some "") =
      redisKeyForThread ⟨none, none, none, none⟩ (some "default") ∧
    ("" : String) ≠ "default" :=
  ⟨rfl, by decide⟩

/-- C7 amended: distinct NON-EMPTY thread identifiers derive distinct
store keys, and an unset identifier's key is deterministically the
configured prefix followed by the sentinel `"default"`.  (The empty
identifier is falsy in JavaScript and is treated as unset, so it
collides with the explicit identifier `"default"`.) -/
theorem C7_key_derivation (cfg : Config) (a b : String)
    (ha : a ≠ "") (hb : b ≠ "") (hab : a ≠ b) :
    redisKeyForThread cfg (some a) ≠ redisKeyForThread cfg (some b) ∧
    redisKeyForThread cfg none = cfg.keyPfx.getD "rag:mem:" ++ "default" := by
  constructor
  · intro h
    simp only [redisKeyForThread, if_neg ha, if_neg hb] at h
    exact hab (string_append_right_inj h)
  · rfl

/-- C7 witness: the amended statement at the concrete identifiers
`"t1"` and `"t2"` with the default configuration. -/
theorem C7_key_derivation_witness :
    redisKeyForThread ⟨none, none, none, none⟩ (some "t1") ≠
      redisKeyForThread ⟨none, none, none, none⟩ (some "t2") ∧
    redisKeyForThread ⟨none, none, none, none⟩ none =
      (Option.getD none "rag:mem:") ++ "default" :=
  C7_key_derivation ⟨none, none, none, none⟩ "t1" "t2"
    (by decide) (by decide) (by decide)

/-! ### Claim C8: the size estimate matches the persisted bytes -/

/-- C8: for any message list (and a fixed clock reading), the byte
count computed by `estimateRedisValueBytes` equals the UTF-8 byte
length of the exact string `saveMessagesToRedis` writes for that list:
both are `Buffer.byteLength`/`JSON.stringify` of the same
`buildRedisPayload` result, sanitization included. -/
theorem C8_estimate_matches_write (messages : List Message) (now : Nat) :
    estimateRedisValueBytes messages now =
      (rawToString (redisValueWritten messages now)).utf8ByteSize := rfl

/-! ### Claim C9: the strip is not idempotent -/

/-- C9 counterexample: on the content
`"<thi<think></think>nk></think>"` one application of the strip
removes the inner `<think></think>` and splices the surrounding
characters into a brand-new `<think></think>` segment, which a second
application removes as well — so applying the strip twice differs from
applying it once, refuting the claimed idempotence. -/
theorem C9_counterexample :
    stripThinkFromContent (stripThinkFromContent
        (JsonVal.str "<thi<think></think>nk></think>")) ≠
      stripThinkFromContent (JsonVal.str "<thi<think></think>nk></think>") := by
  intro h
  have h2 : stripThinkString (stripThinkString "<thi<think></think>nk></think>") =
      stripThinkString "<thi<think></think>nk></think>" := JsonVal.str.inj h
  exact absurd h2 (by decide)

/-- C9 amended: the strip is idempotent exactly on those string
contents whose once-stripped result contains no remaining
`<think>…</think>` segment (removal can splice a new segment together,
and on such inputs a second application strips further). -/
theorem C9_strip_idempotent_on_settled (s : String)
    (h : hasThinkMatch (stripThinkString s).data = false) :
    stripThinkFromContent (stripThinkFromContent (JsonVal.str s)) =
      stripThinkFromContent (JsonVal.str s) := by
  show JsonVal.str (stripThinkString (stripThinkString s)) =
    JsonVal.str (stripThinkString s)
  rw [stripThinkString_of_no_match _ h]

/-- C9 witness: the amended statement at the content
`"a<think>x</think>b"`, whose stripped form `"ab"` is markup-free. -/
theorem C9_strip_idempotent_on_settled_witness :
    hasThinkMatch (stripThinkString "a<think>x</think>b").data = false ∧
    stripThinkFromContent (stripThinkFromContent (JsonVal.str "a<think>x</think>b")) =
      stripThinkFromContent (JsonVal.str "a<think>x</think>b") :=
  ⟨by decide, C9_strip_idempotent_on_settled "a<think>x</think>b" (by decide)⟩

/-! ### Claim C5: load error behavior -/

/-- C5 counterexample: on a stored payload that `JSON.parse` rejects,
`loadMessagesFromRedis` does NOT return the empty list — the parse
error propagates to its caller (the hydrate node's `try`/`catch`),
because the `JSON.parse(raw)` call sits outside any local handler.
This refutes the claim that load never propagates a parse error. -/
theorem C5_counterexample :
    loadMessagesFromRedis ⟨none, none, none, none⟩
      (fun k => if k = "rag:mem:t1" then some (RawValue.malformed "not json") else none)
      (some "t1") = Except.error "JSON.parse: unexpected token" := rfl

/-- C5 amended: load returns the empty list on a missing key, on a
falsy (empty) raw value, and on a parseable payload whose `messages`
field is not an array; an UNPARSEABLE payload instead raises the parse
error to load's caller (the hydrate stage catches it, so the turn
still proceeds). -/
theorem C5_load_malformed (cfg : Config) (store : Store) (tid : Option String) :
    (store (redisKeyForThread cfg tid) = none →
      loadMessagesFromRedis cfg store tid = Except.ok []) ∧
    (store (redisKeyForThread cfg tid) = some (RawValue.malformed "") →
      loadMessagesFromRedis cfg store tid = Except.ok []) ∧
    (∀ v, store (redisKeyForThread cfg tid) = some (RawValue.json v) → storedOf v = [] →
      loadMessagesFromRedis cfg store tid = Except.ok []) ∧
    (∀ s, store (redisKeyForThread cfg tid) = some (RawValue.malformed s) → s ≠ "" →
      loadMessagesFromRedis cfg store tid = Except.error "JSON.parse: unexpected token") := by
  refine ⟨?_, ?_, ?_, ?_⟩
  · intro h
    unfold loadMessagesFromRedis
    rw [h]
  · intro h
    unfold loadMessagesFromRedis
    rw [h]
    rfl
  · intro v h hv
    unfold loadMessagesFromRedis
    rw [h]
    show mapStoredMessagesToChatMessages (storedOf v) = Except.ok []
    rw [hv]
    rfl
  · intro s h hs
    have hf : isFalsyRaw (RawValue.malformed s) = false := by
      simpa [isFalsyRaw] using hs
    simp [loadMessagesFromRedis, h, hf]

/-- C5 witness: the amended statement's missing-key case at a concrete
empty store. -/
theorem C5_load_malformed_witness :
    loadMessagesFromRedis ⟨none, none, none, none⟩ (fun _ => none) (some "t1") =
      Except.ok [] :=
  (C5_load_malformed ⟨none, none, none, none⟩ (fun _ => none) (some "t1")).1 rfl

/-! ### Claim C3: summarize no-op conditions -/

/-- C3: the summarize stage leaves the state unchanged whenever the
byte threshold is unset or non-positive, or the estimated serialized
size is at or below the threshold, or the history contains no
non-system message. -/
theorem C3_summarize_noop (env : Env) (st : GraphState)
    (h : env.cfg.maxValueBytes.getD 0 ≤ 0 ∨
         (estimateRedisValueBytes st.messages env.now : Int) ≤ env.cfg.maxValueBytes.getD 0 ∨
         nonSystemMessagesOf st.messages = []) :
    applyDelta st (summarizeNode env st) = st := by
  rcases h with h | h | h
  · rw [summarizeNode_of_nonpos env st h]; exact applyDelta_empty st
  · rw [summarizeNode_of_small env st h]; exact applyDelta_empty st
  · rw [summarizeNode_of_noNonSystem env st h]; exact applyDelta_empty st

/-- Configuration with every optional entry unset (all defaults). -/
def cfgAllUnset : Config := ⟨none, none, none, none⟩

/-- A sample turn state used by the witnesses. -/
def sampleState : GraphState := ⟨[], some "t1", "q", none, none⟩

/-- An environment whose threshold is unset and whose externals are
benign, used by the C3 witness. -/
def envNoop : Env :=
  ⟨cfgAllUnset, fun _ => none, false, Except.ok ⟨none, none, none⟩,
   SummaryOutcome.noOutput, false, 0⟩

/-- C3 witness: with the threshold unset (the default configuration)
the summarize stage is the identity on a concrete state. -/
theorem C3_summarize_noop_witness :
    applyDelta sampleState (summarizeNode envNoop sampleState) = sampleState :=
  C3_summarize_noop envNoop sampleState (Or.inl (by decide))

/-! ### Claim C6: hydrate replaces the in-memory history -/

lemma hydrateNode_of_restored (env : Env) (st : GraphState) (restored : List Message)
    (hg : env.getFails = false)
    (hl : loadMessagesFromRedis env.cfg env.store st.threadId = Except.ok restored)
    (hne : restored ≠ []) :
    hydrateNode env st = ⟨some (GMsg.removeAll :: restored.map GMsg.msg), none, none⟩ := by
  have hE : restored.isEmpty = false := by simpa [List.isEmpty_iff] using hne
  simp [hydrateNode, hydrateAttempt, hg, hl, hE, catchDelta]

/-- C6: whenever hydrate restores a non-empty history, the resulting
state's message list is exactly the restored list in its original
order — the caller-supplied in-memory history is cleared first (the
remove-all marker) and no caller-supplied message survives. -/
theorem C6_hydrate_replaces (env : Env) (st : GraphState) (restored : List Message)
    (hg : env.getFails = false)
    (hl : loadMessagesFromRedis env.cfg env.store st.threadId = Except.ok restored)
    (hne : restored ≠ []) :
    (applyDelta st (hydrateNode env st)).messages = restored := by
  rw [hydrateNode_of_restored env st restored hg hl hne]
  show messagesStateReducer st.messages (GMsg.removeAll :: restored.map GMsg.msg) = restored
  exact reducer_removeAll st.messages restored

/-- A store holding one well-formed single-message payload for the
thread `"t1"` under the default key prefix. -/
def storeWithT1 : Store :=
  fun k =>
    if k = "rag:mem:t1" then
      some (RawValue.json (JsonVal.obj (JsonObj.ofList
        [("messages", JsonVal.arr (JsonList.ofList
          [JsonVal.obj (JsonObj.ofList
            [("type", JsonVal.str "human"),
             ("data", JsonVal.obj (JsonObj.ofList
               [("content", JsonVal.str "hi"),
                ("additional_kwargs", JsonVal.obj JsonObj.nil),
                ("response_metadata", JsonVal.obj JsonObj.nil)]))])]))])))
    else none

/-- Environment reading from `storeWithT1`, used by the C6 witness. -/
def envHydrate : Env :=
  ⟨cfgAllUnset, storeWithT1, false, Except.ok ⟨none, none, none⟩,
   SummaryOutcome.noOutput, false, 0⟩

/-- C6 witness: hydrating the sample state (whose caller history is
empty but whose store holds one message) installs exactly the restored
message. -/
theorem C6_hydrate_replaces_witness :
    (applyDelta sampleState (hydrateNode envHydrate sampleState)).messages =
      [humanMessage "hi"] :=
  C6_hydrate_replaces envHydrate sampleState [humanMessage "hi"] rfl rfl
    (List.cons_ne_nil _ _)

/-! ### Claim C2: summarize output shape over the threshold -/

/-- C2: over the threshold, with at least one non-system message and a
produced summary, the summarize stage's result is the system messages
in original order, then the one synthesized summary message, then
exactly `min keepLastN (number of non-system messages)` most-recent
non-system messages verbatim in original order.  The summarization
middleware itself is an external package and is modelled from the
spec's contract. -/
theorem C2_summarize_shape (env : Env) (st : GraphState) (body : String)
    (h1 : 0 < env.cfg.maxValueBytes.getD 0)
    (h2 : env.cfg.maxValueBytes.getD 0 < (estimateRedisValueBytes st.messages env.now : Int))
    (h3 : nonSystemMessagesOf st.messages ≠ [])
    (h : env.summaryOutcome = SummaryOutcome.produces body) :
    (applyDelta st (summarizeNode env st)).messages =
      systemMessagesOf st.messages ++
        summaryMessage ((env.cfg.summaryPfx).getD "对话摘要：") body ::
          (nonSystemMessagesOf st.messages).drop
            ((nonSystemMessagesOf st.messages).length -
             ((env.cfg.summaryKeepLastN).getD 6).toNat) ∧
    ((nonSystemMessagesOf st.messages).drop
        ((nonSystemMessagesOf st.messages).length -
         ((env.cfg.summaryKeepLastN).getD 6).toNat)).length =
      min ((env.cfg.summaryKeepLastN).getD 6).toNat
        (nonSystemMessagesOf st.messages).length := by
  have h1' : ¬ env.cfg.maxValueBytes.getD 0 ≤ 0 := not_le.mpr h1
  have h2' : ¬ (estimateRedisValueBytes st.messages env.now : Int) ≤
      env.cfg.maxValueBytes.getD 0 := not_le.mpr h2
  constructor
  · rw [summarizeNode_of_produces env st body h1' h2' h3 h]
    show messagesStateReducer st.messages
        (GMsg.removeAll ::
          (systemMessagesOf st.messages ++
           summarizedMessagesOf env.cfg body (nonSystemMessagesOf st.messages)).map GMsg.msg) = _
    rw [reducer_removeAll, summarizedMessagesOf_eq]
  · rw [List.length_drop]
    omega

/-- Environment with a 1-byte threshold, `keepLastN = 2` and a
produced summary, used by the C2 witness. -/
def envSumm : Env :=
  ⟨⟨none, some 1, some 2, none⟩, fun _ => none, false,
   Except.ok ⟨none, none, none⟩, SummaryOutcome.produces "S", false, 0⟩

/-- State holding one human message, used by the C2 witness. -/
def stSumm : GraphState := ⟨[humanMessage "hello"], some "t1", "q", none, none⟩

/-- C2 witness: the shape theorem at a concrete over-threshold turn. -/
theorem C2_summarize_shape_witness :
    (applyDelta stSumm (summarizeNode envSumm stSumm)).messages =
      systemMessagesOf stSumm.messages ++
        summaryMessage ((envSumm.cfg.summaryPfx).getD "对话摘要：") "S" ::
          (nonSystemMessagesOf stSumm.messages).drop
            ((nonSystemMessagesOf stSumm.messages).length -
             ((envSumm.cfg.summaryKeepLastN).getD 6).toNat) ∧
    ((nonSystemMessagesOf stSumm.messages).drop
        ((nonSystemMessagesOf stSumm.messages).length -
         ((envSumm.cfg.summaryKeepLastN).getD 6).toNat)).length =
      min ((envSumm.cfg.summaryKeepLastN).getD 6).toNat
        (nonSystemMessagesOf stSumm.messages).length :=
  C2_summarize_shape envSumm stSumm "S" (by decide) (by decide)
    (List.cons_ne_nil _ _) rfl

/-! ### Claim C10: sanitization is a frame-preserving transform -/

lemma jsonGet_stripThinkFields_ne (v : JsonVal) (k : String) (hk : k ≠ "think") :
    jsonGet (stripThinkFields v) k = jsonGet v k := by
  cases v with
  | obj kvs => simpa [stripThinkFields, jsonGet] using objGet_objDeleteThink_ne kvs k hk
  | null => rfl
  | bool b => rfl
  | num n => rfl
  | str s => rfl
  | arr xs => rfl

lemma jsonGet_stripThinkFields_think (v : JsonVal) :
    jsonGet (stripThinkFields v) "think" = none := by
  cases v with
  | obj kvs => simpa [stripThinkFields, jsonGet] using objGet_objDeleteThink_think kvs
  | null => rfl
  | bool b => rfl
  | num n => rfl
  | str s => rfl
  | arr xs => rfl

/-- C10: for every position of the input list, the stored form keeps
the message's type/role, keeps every metadata binding other than
`think` with its original value (and drops `think`), and leaves
non-string content values entirely unchanged. -/
theorem C10_sanitize_frame (msgs : List Message) (i : Nat) (m : Message)
    (h : msgs[i]? = some m) :
    ∃ sm, (mapMessagesForStorage msgs)[i]? = some sm ∧
      sm.type = roleToType m.role ∧
      (∀ k, k ≠ "think" →
        jsonGet sm.additional_kwargs k = jsonGet m.additional_kwargs k) ∧
      jsonGet sm.additional_kwargs "think" = none ∧
      (∀ k, k ≠ "think" →
        jsonGet sm.response_metadata k = jsonGet m.response_metadata k) ∧
      jsonGet sm.response_metadata "think" = none ∧
      ((∀ s, m.content ≠ JsonVal.str s) → sm.content = m.content) := by
  refine ⟨sanitizeStored (messageToStored m), ?_, rfl, ?_, ?_, ?_, ?_, ?_⟩
  · unfold mapMessagesForStorage mapChatMessagesToStoredMessages
    rw [List.map_map, List.getElem?_map, h]
    rfl
  · intro k hk
    exact jsonGet_stripThinkFields_ne m.additional_kwargs k hk
  · exact jsonGet_stripThinkFields_think m.additional_kwargs
  · intro k hk
    exact jsonGet_stripThinkFields_ne m.response_metadata k hk
  · exact jsonGet_stripThinkFields_think m.response_metadata
  · intro hns
    show stripThinkFromContent m.content = m.content
    cases hc : m.content with
    | str s => exact absurd hc (hns s)
    | null => rfl
    | bool b => rfl
    | num n => rfl
    | arr xs => rfl
    | obj kvs => rfl

/-- A message with a `think` metadata key and another key, used by the
C10 witness. -/
def msgWithThink : Message :=
  ⟨Role.ai, JsonVal.str "x",
   JsonVal.obj (JsonObj.ofList
     [("think", JsonVal.str "secret"), ("a", JsonVal.str "b")]),
   JsonVal.obj JsonObj.nil⟩

/-- C10 witness: the frame theorem at position 0 of a concrete
one-message list carrying a `think` metadata key. -/
theorem C10_sanitize_frame_witness :
    ∃ sm, (mapMessagesForStorage [msgWithThink])[0]? = some sm ∧
      sm.type = roleToType msgWithThink.role ∧
      (∀ k, k ≠ "think" →
        jsonGet sm.additional_kwargs k = jsonGet msgWithThink.additional_kwargs k) ∧
      jsonGet sm.additional_kwargs "think" = none ∧
      (∀ k, k ≠ "think" →
        jsonGet sm.response_metadata k = jsonGet msgWithThink.response_metadata k) ∧
      jsonGet sm.response_metadata "think" = none ∧
      ((∀ s, msgWithThink.content ≠ JsonVal.str s) → sm.content = msgWithThink.content) :=
  C10_sanitize_frame [msgWithThink] 0 msgWithThink rfl

/-! ### Claim C4: save/load round trip -/

lemma toList_ofList (l : List JsonVal) : (JsonList.ofList l).toList = l := by
  induction l with
  | nil => rfl
  | cons x rest ih => simp [JsonList.ofList, JsonList.toList, ih]

lemma storedOf_encodePayload (p : RedisPayload) :
    storedOf (encodePayload p) = p.messages.map encodeStoredMessage := by
  unfold storedOf encodePayload jsonGet
  simp [JsonObj.ofList, objGet, toList_ofList]

/-- C4: a message sequence whose string contents carry no
`<think>…</think>` segment and whose metadata objects carry no `think`
key is reproduced exactly — same length, same roles, same contents,
same order — by saving it to the store and loading it back for the
same thread. -/
theorem C4_roundtrip (cfg : Config) (store : Store) (tid : Option String)
    (msgs : List Message) (now : Nat)
    (h : ∀ m ∈ msgs, contentNoThink m.content = true ∧
         noThinkKey m.additional_kwargs = true ∧ noThinkKey m.response_metadata = true) :
    loadMessagesFromRedis cfg (saveMessagesToRedis cfg store tid msgs now) tid =
      Except.ok msgs := by
  unfold loadMessagesFromRedis saveMessagesToRedis
  simp only [if_pos rfl]
  show mapStoredMessagesToChatMessages
      (storedOf (encodePayload (buildRedisPayload msgs now))) = Except.ok msgs
  rw [storedOf_encodePayload]
  exact mapStored_roundtrip msgs h

/-- Two sanitized-clean sample messages for the C4 witness. -/
def cleanMsgs : List Message :=
  [humanMessage "hi",
   ⟨Role.ai, JsonVal.str "ok",
    JsonVal.obj (JsonObj.ofList [("a", JsonVal.str "b")]), JsonVal.null⟩]

/-- C4 witness: the round trip at a concrete two-message history. -/
theorem C4_roundtrip_witness :
    loadMessagesFromRedis cfgAllUnset
      (saveMessagesToRedis cfgAllUnset (fun _ => none) (some "t1") cleanMsgs 7) (some "t1") =
      Except.ok cleanMsgs :=
  C4_roundtrip cfgAllUnset (fun _ => none) (some "t1") cleanMsgs 7 (by decide)

/-! ### Claim C1: per-stage failure policy -/

lemma applyDelta_answer_none (st : GraphState) (d : Delta) (h : d.answer = none) :
    (applyDelta st d).answer = st.answer := by
  unfold applyDelta
  rw [h]

lemma applyDelta_answer_some (st : GraphState) (d : Delta) (a : String)
    (h : d.answer = some a) : (applyDelta st d).answer = some a := by
  unfold applyDelta
  rw [h]

/-- C1: a failure in hydrate, summarize or persist is absorbed by that
stage — the stage contributes no state change (hydrate, summarize) or
leaves the store untouched (persist) — and the turn completes with the
rag answer; a failure of the rag stage is the only one that aborts the
turn, propagating the chain's error to the caller. -/
theorem C1_failure_policy (env : Env) (st : GraphState) :
    (∀ e, env.ragResult = Except.error e → runPipeline env st = Except.error e) ∧
    (∀ res, env.ragResult = Except.ok res →
      ∃ out, runPipeline env st = Except.ok out ∧
        out.1.answer = some (ragAnswerOf res)) ∧
    (env.getFails = true → hydrateNode env st = Delta.empty) ∧
    (∀ e, env.summaryOutcome = SummaryOutcome.throws e →
      ∀ st2, summarizeNode env st2 = Delta.empty) ∧
    (env.setFails = true → ∀ st2, persistStore env st2 = env.store) := by
  refine ⟨?_, ?_, ?_, ?_, ?_⟩
  · intro e he
    unfold runPipeline ragNode
    rw [he]
  · intro res hres
    unfold runPipeline ragNode
    rw [hres]
    refine ⟨_, rfl, ?_⟩
    rw [applyDelta_empty]
    rw [applyDelta_answer_none _ _ ((summarizeNode_answer_context env _).1)]
    exact applyDelta_answer_some _ _ _ rfl
  · intro hg
    exact hydrateNode_of_getFails env st hg
  · intro e he st2
    exact summarizeNode_of_throws env st2 e he
  · intro hs st2
    unfold persistStore
    rw [hs]
    rfl

/-- Environment whose rag chain fails, used by the C1 witness. -/
def envRagFails : Env :=
  ⟨cfgAllUnset, fun _ => none, true, Except.error "boom",
   SummaryOutcome.throws "mw down", true, 0⟩

/-- Environment whose rag chain succeeds while every other external
(store read, summarization middleware, store write) fails, used by the
C1 witness. -/
def envRagOk : Env :=
  ⟨cfgAllUnset, fun _ => none, true, Except.ok ⟨some "ans", none, some []⟩,
   SummaryOutcome.throws "mw down", true, 0⟩

/-- C1 witness: at concrete environments, a rag failure aborts the
turn with its error, and with every other stage failing the turn still
completes with the rag answer while those stages leave no trace. -/
theorem C1_failure_policy_witness :
    runPipeline envRagFails sampleState = Except.error "boom" ∧
    (∃ out, runPipeline envRagOk sampleState = Except.ok out ∧
      out.1.answer = some (ragAnswerOf ⟨some "ans", none, some []⟩)) ∧
    hydrateNode envRagOk sampleState = Delta.empty ∧
    summarizeNode envRagOk sampleState = Delta.empty ∧
    persistStore envRagOk sampleState = envRagOk.store :=
  ⟨(C1_failure_policy envRagFails sampleState).1 "boom" rfl,
   (C1_failure_policy envRagOk sampleState).2.1 ⟨some "ans", none, some []⟩ rfl,
   (C1_failure_policy envRagOk sampleState).2.2.1 rfl,
   (C1_failure_policy envRagOk sampleState).2.2.2.1 "mw down" rfl sampleState,
   (C1_failure_policy envRagOk sampleState).2.2.2.2 rfl sampleState⟩

end Bokang
